import Mathlib

/-!
Verification of the git-stack commit-graph core: the graph node model and its
merge operation (src/graph/node.rs), the layered configuration merge and the
config enums (src/config.rs), and the branch-classification queries exercised
by tests/branches.rs.

Commit ids (`git2::Oid`) are modelled as `Nat`; durations as `Nat` seconds;
Rust's `Option<T>` as `Option`; `BTreeSet<Oid>` as `Finset Nat`; a panicking
`assert_eq!` as an `Option`-returning function (`none` on assertion failure).
-/

namespace GitStack

/-- Modelled from the spec: `Commit` (crate::git::Commit, not under src/):
an immutable snapshot of one repository commit — id, ordered parent ids,
message, author/committer time. -/
structure Commit where
  id : Nat
  parent_ids : List Nat
  message : String
  time : Nat
  deriving DecidableEq

/-- Modelled from the spec: `Branch` (crate::git::Branch, not under src/):
name plus target commit id for one local branch reference. -/
structure Branch where
  name : String
  id : Nat
  deriving DecidableEq

/-- Modelled from the spec: `Action` (crate::graph::Action, not under src/):
`Pick | Fixup(target) | Squash(target) | Protect`, with `Pick` the neutral
default. -/
inductive Action where
  | Pick : Action
  | Fixup : Nat → Action
  | Squash : Nat → Action
  | Protect : Action
  deriving DecidableEq

/-- `Node` from src/graph/node.rs: one commit plus the branches pointing at
it, the planned rebase action, a pushability flag, and the set of direct
child commit ids discovered so far. -/
structure Node where
  commit : Commit
  branches : List Branch
  action : Action
  pushable : Bool
  children : Finset Nat
  deriving DecidableEq

/-- `Node::new` from src/graph/node.rs: seeds an empty branch list,
`Action::Pick`, `pushable = false`, empty children. -/
def Node.new (commit : Commit) : Node :=
  { commit := commit
    branches := []
    action := Action.Pick
    pushable := false
    children := ∅ }

/-- `Node::update` from src/graph/node.rs. The Rust code first runs
`assert_eq!(self.commit.id, other.commit.id)` (a panic on mismatch, modelled
as `none`), then appends `other`'s branches, overwrites the action when
`other.action != Pick`, ORs the pushable flags and unions the children. -/
def Node.update (self other : Node) : Option Node :=
  if self.commit.id = other.commit.id then
    some
      { commit := self.commit
        branches := self.branches ++ other.branches
        action := if other.action ≠ Action.Pick then other.action else self.action
        pushable := if other.pushable then true else self.pushable
        children := self.children ∪ other.children }
  else
    none

/-- `Format` from src/config.rs: the `stack.show-format` enum. -/
inductive Format where
  | Silent : Format
  | Branches : Format
  | BranchCommits : Format
  | Commits : Format
  | Debug : Format
  deriving DecidableEq

/-- `Format::variants` from src/config.rs. -/
def Format.variants : List String :=
  ["silent", "branches", "branch-commits", "commits", "debug"]

/-- `impl FromStr for Format` from src/config.rs; `Err` carries the
"valid values" message. -/
def Format.from_str (s : String) : Except String Format :=
  if s = "silent" then Except.ok Format.Silent
  else if s = "branches" then Except.ok Format.Branches
  else if s = "branch-commits" then Except.ok Format.BranchCommits
  else if s = "commits" then Except.ok Format.Commits
  else if s = "debug" then Except.ok Format.Debug
  else Except.error ("valid values: " ++ String.intercalate ", " Format.variants)

/-- `impl Display for Format` from src/config.rs. -/
def Format.display : Format → String
  | Format.Silent => "silent"
  | Format.Branches => "branches"
  | Format.BranchCommits => "branch-commits"
  | Format.Commits => "commits"
  | Format.Debug => "debug"

/-- `impl Default for Format` from src/config.rs. -/
def Format.default : Format := Format.BranchCommits

/-- `Stack` from src/config.rs: the `stack.stack` scope enum. -/
inductive Stack where
  | Current : Stack
  | Dependents : Stack
  | Descendants : Stack
  | All : Stack
  deriving DecidableEq

/-- `Stack::variants` from src/config.rs. -/
def Stack.variants : List String :=
  ["current", "dependents", "descendants", "all"]

/-- `impl FromStr for Stack` from src/config.rs. -/
def Stack.from_str (s : String) : Except String Stack :=
  if s = "current" then Except.ok Stack.Current
  else if s = "dependents" then Except.ok Stack.Dependents
  else if s = "descendants" then Except.ok Stack.Descendants
  else if s = "all" then Except.ok Stack.All
  else Except.error ("valid values: " ++ String.intercalate ", " Stack.variants)

/-- `impl Display for Stack` from src/config.rs. -/
def Stack.display : Stack → String
  | Stack.Current => "current"
  | Stack.Dependents => "dependents"
  | Stack.Descendants => "descendants"
  | Stack.All => "all"

/-- `impl Default for Stack` from src/config.rs. -/
def Stack.default : Stack := Stack.All

/-- `Fixup` from src/config.rs: the `stack.auto-fixup` policy enum. -/
inductive Fixup where
  | Ignore : Fixup
  | Move : Fixup
  | Squash : Fixup
  deriving DecidableEq

/-- `Fixup::variants` from src/config.rs. -/
def Fixup.variants : List String :=
  ["ignore", "move", "squash"]

/-- `impl FromStr for Fixup` from src/config.rs. -/
def Fixup.from_str (s : String) : Except String Fixup :=
  if s = "ignore" then Except.ok Fixup.Ignore
  else if s = "move" then Except.ok Fixup.Move
  else if s = "squash" then Except.ok Fixup.Squash
  else Except.error ("valid values: " ++ String.intercalate ", " Fixup.variants)

/-- `impl Display for Fixup` from src/config.rs. -/
def Fixup.display : Fixup → String
  | Fixup.Ignore => "ignore"
  | Fixup.Move => "move"
  | Fixup.Squash => "squash"

/-- `impl Default for Fixup` from src/config.rs. -/
def Fixup.default : Fixup := Fixup.Move

/-- `RepoConfig` from src/config.rs. `Duration` is modelled as `Nat`
seconds, `usize` as `Nat`. -/
structure RepoConfig where
  protected_branches : Option (List String)
  protect_commit_count : Option Nat
  protect_commit_age : Option Nat
  stack : Option Stack
  push_remote : Option String
  pull_remote : Option String
  show_format : Option Format
  show_stacked : Option Bool
  auto_fixup : Option Fixup
  auto_repair : Option Bool
  capacity : Option Nat
  deriving DecidableEq

/-- `impl Default for RepoConfig` (the `#[derive(Default)]` in
src/config.rs): every field unset. -/
def RepoConfig.mkDefault : RepoConfig :=
  { protected_branches := none
    protect_commit_count := none
    protect_commit_age := none
    stack := none
    push_remote := none
    pull_remote := none
    show_format := none
    show_stacked := none
    auto_fixup := none
    auto_repair := none
    capacity := none }

/-- `RepoConfig::update` from src/config.rs: `protected_branches` extends
the left list with the right one (or adopts the right when the left is
unset), every other field takes `other`'s value when set and otherwise
keeps `self`'s (`other.field.or(self.field)`). -/
def RepoConfig.update (self other : RepoConfig) : RepoConfig :=
  { protected_branches :=
      match self.protected_branches, other.protected_branches with
      | some lhs, some rhs => some (lhs ++ rhs)
      | none, some rhs => some rhs
      | lhs, none => lhs
    protect_commit_count := other.protect_commit_count.or self.protect_commit_count
    protect_commit_age := other.protect_commit_age.or self.protect_commit_age
    push_remote := other.push_remote.or self.push_remote
    pull_remote := other.pull_remote.or self.pull_remote
    stack := other.stack.or self.stack
    show_format := other.show_format.or self.show_format
    show_stacked := other.show_stacked.or self.show_stacked
    auto_fixup := other.auto_fixup.or self.auto_fixup
    auto_repair := other.auto_repair.or self.auto_repair
    capacity := other.capacity.or self.capacity }

/-- A repository view: the arena of commits, looked up by id
(`repo.commit(id)` in the Rust interface). -/
def lookupCommit (repo : List Commit) (id : Nat) : Option Commit :=
  repo.find? (fun c => c.id == id)

/-- Fuel-bounded reachability along parent links: `reachesAncestor repo fuel
start anc` holds when `anc` is `start` itself or is reached from `start` by
following parent ids for at most `fuel` steps. -/
def reachesAncestor (repo : List Commit) : Nat → Nat → Nat → Bool
  | 0, _, _ => false
  | fuel + 1, start, anc =>
    start == anc ||
      match lookupCommit repo start with
      | some c => c.parent_ids.any (fun p => reachesAncestor repo fuel p anc)
      | none => false

/-- `anc` is an ancestor of (or equal to) `des`: `des` reaches `anc` by
parent links. In an acyclic repository every simple ancestry path visits at
most `repo.length` commits, so `repo.length + 1` units of fuel suffice. -/
def isAncestor (repo : List Commit) (anc des : Nat) : Bool :=
  reachesAncestor repo (repo.length + 1) des anc

/-- Modelled from the spec: `Branches::descendants` (implementation not
under src/, only tests/branches.rs): every indexed branch whose target
commit is `base_id` itself or has `base_id` as an ancestor, including
branches that diverge from `base_id` through different children. -/
def descendants (repo : List Commit) (branches : List Branch) (base_id : Nat) :
    List Branch :=
  branches.filter (fun b => isAncestor repo base_id b.id)

/-- Modelled from the spec: `Branches::dependents` (implementation not under
src/): descendants of `base_id` restricted to the connected lineage through
`head_id`, excluding sibling lines that diverge from `base_id` and never
reconnect. Per tests/branches.rs `test_dependents`, branches sitting beyond
`head_id` on the same line (feature2 above feature1) are included, so the
lineage condition is comparability with `head_id` in ancestry order. -/
def dependents (repo : List Commit) (branches : List Branch)
    (base_id head_id : Nat) : List Branch :=
  branches.filter (fun b =>
    isAncestor repo base_id b.id &&
      (isAncestor repo b.id head_id || isAncestor repo head_id b.id))

/-- Modelled from the spec: `Branches::branch` (implementation not under
src/): the strictest window — only branches whose commit lies on the direct
path from `base_id` to `head_id` inclusive, excluding further stack
segments beyond `head_id`. -/
def branch (repo : List Commit) (branches : List Branch)
    (base_id head_id : Nat) : List Branch :=
  branches.filter (fun b =>
    isAncestor repo base_id b.id && isAncestor repo b.id head_id)

/-- Depth-first, fuel-bounded upward walk from a commit, preferring the
first/primary parent: returns the first branch produced by `check` at a
visited commit. Shared skeleton of the two `find_protected_base` models. -/
def walkUp (repo : List Commit) (check : Nat → Option Branch) :
    Nat → Nat → Option Branch
  | 0, _ => none
  | fuel + 1, id =>
    match check id with
    | some b => some b
    | none =>
      match lookupCommit repo id with
      | some c => c.parent_ids.findSome? (fun p => walkUp repo check fuel p)
      | none => none

/-- Modelled from the spec: `find_protected_base` read literally —
"walks `head_id`'s ancestry strictly upward (following first/primary
parent, then all parents if none found — depth-first over all parents)
until it reaches a commit carrying a protected branch; returns that
branch, or `None`". `check` fires exactly when a protected branch points
at the visited commit. -/
def find_protected_base_spec (repo : List Commit)
    (protected_branches : List Branch) (head_id : Nat) : Option Branch :=
  walkUp repo (fun id => protected_branches.find? (fun b => b.id == id))
    (repo.length + 1) head_id

/-- Modelled from the spec: `find_protected_base` (implementation not under
src/) as fixed against tests/branches.rs `test_protected_base`, which
requires `Some(master)` from `base` although master sits on a descendant of
base. The walk up `head_id`'s ancestry stops at the first commit that is a
merge base with some protected branch tip — i.e. the first visited commit
that is an ancestor of (or carries) a protected branch — and returns that
protected branch. -/
def find_protected_base (repo : List Commit)
    (protected_branches : List Branch) (head_id : Nat) : Option Branch :=
  walkUp repo (fun id => protected_branches.find? (fun b => isAncestor repo id b.id))
    (repo.length + 1) head_id

/-- The fixture DAG of tests/fixtures/branches.yml:
`initial → base → {feature1 → feature2, off_master → master}`.
Ids: initial 0, base 1, feature1 2, feature2 3, off_master 4, master 5. -/
def fixtureRepo : List Commit :=
  [{ id := 0, parent_ids := [], message := "initial", time := 0 },
   { id := 1, parent_ids := [0], message := "base", time := 1 },
   { id := 2, parent_ids := [1], message := "feature1", time := 2 },
   { id := 3, parent_ids := [2], message := "feature2", time := 3 },
   { id := 4, parent_ids := [1], message := "off_master", time := 4 },
   { id := 5, parent_ids := [4], message := "master", time := 5 }]

/-- The fixture's local branches, one per commit. -/
def fixtureBranches : List Branch :=
  [{ name := "initial", id := 0 }, { name := "base", id := 1 },
   { name := "feature1", id := 2 }, { name := "feature2", id := 3 },
   { name := "off_master", id := 4 }, { name := "master", id := 5 }]

/-- The fixture's protected set `{master}` after `Branches::protected`
filtering. -/
def fixtureProtected : List Branch :=
  [{ name := "master", id := 5 }]

/-! Concrete nodes used to exercise `Node.update`. -/

/-- A partial node for commit 1 carrying a non-neutral `Fixup` action. -/
def nodeA : Node :=
  { commit := { id := 1, parent_ids := [0], message := "base", time := 1 }
    branches := [{ name := "base", id := 1 }]
    action := Action.Fixup 7
    pushable := false
    children := {2} }

/-- A second partial node for commit 1 carrying a different non-neutral
`Squash` action. -/
def nodeB : Node :=
  { commit := { id := 1, parent_ids := [0], message := "base", time := 1 }
    branches := [{ name := "extra", id := 1 }]
    action := Action.Squash 8
    pushable := true
    children := {4} }

/-- A partial node for commit 1 with the neutral `Pick` action. -/
def nodeP : Node :=
  { commit := { id := 1, parent_ids := [0], message := "base", time := 1 }
    branches := []
    action := Action.Pick
    pushable := false
    children := ∅ }

/-- A partial node for commit 2 (a different commit id) with a `Protect`
action. -/
def nodeQ : Node :=
  { commit := { id := 2, parent_ids := [1], message := "feature1", time := 2 }
    branches := [{ name := "feature1", id := 2 }]
    action := Action.Protect
    pushable := false
    children := ∅ }

/-- A partial node for commit 2 with a `Protect` action. -/
def nodeC : Node :=
  { commit := { id := 2, parent_ids := [1], message := "feature1", time := 2 }
    branches := []
    action := Action.Protect
    pushable := false
    children := ∅ }

/-- A second partial node for commit 2 with a differing non-neutral
`Fixup` action. -/
def nodeD : Node :=
  { commit := { id := 2, parent_ids := [1], message := "feature1", time := 2 }
    branches := []
    action := Action.Fixup 0
    pushable := false
    children := ∅ }

/-- C1 counterexample: `Node::update` is not commutative for two nodes on
the same commit carrying differing non-neutral actions — merging B into A
yields B's `Squash 8` while merging A into B yields A's `Fixup 7`, so the
resulting actions differ. -/
theorem node_update_not_commutative :
    (nodeA.update nodeB).map Node.action = some (Action.Squash 8) ∧
      (nodeB.update nodeA).map Node.action = some (Action.Fixup 7) :=
  ⟨rfl, rfl⟩

/-- C1 (amended): for two partial nodes sharing a commit id, provided at
most one of them carries a non-neutral action (or both carry the same
action), merging in either order succeeds and yields the same action,
pushable flag, children set, and branch multiset. -/
theorem node_update_commutative (x y : Node)
    (hid : x.commit.id = y.commit.id)
    (hact : x.action = Action.Pick ∨ y.action = Action.Pick ∨ x.action = y.action) :
    (x.update y).isSome = true ∧
      (x.update y).map Node.action = (y.update x).map Node.action ∧
      (x.update y).map Node.pushable = (y.update x).map Node.pushable ∧
      (x.update y).map Node.children = (y.update x).map Node.children ∧
      (x.update y).map (fun n => (n.branches : Multiset Branch)) =
        (y.update x).map (fun n => (n.branches : Multiset Branch)) := by
  unfold Node.update
  rw [if_pos hid, if_pos hid.symm]
  refine ⟨rfl, ?_, ?_, ?_, ?_⟩
  · simp only [Option.map_some']
    congr 1
    rcases hact with h | h | h
    · rw [h]
      by_cases hy : y.action = Action.Pick <;> simp [hy]
    · rw [h]
      by_cases hx : x.action = Action.Pick <;> simp [hx]
    · rw [h]
  · simp only [Option.map_some']
    cases x.pushable <;> cases y.pushable <;> rfl
  · simp only [Option.map_some']
    rw [Finset.union_comm]
  · simp only [Option.map_some']
    congr 1
    exact Multiset.coe_eq_coe.mpr (List.perm_append_comm)

/-- C1 witness: commuting the merge of the `Pick` node with a non-neutral
node at commit 1. -/
theorem node_update_commutative_witness :
    (nodeP.update nodeB).isSome = true ∧
      (nodeP.update nodeB).map Node.action = (nodeB.update nodeP).map Node.action ∧
      (nodeP.update nodeB).map Node.pushable = (nodeB.update nodeP).map Node.pushable ∧
      (nodeP.update nodeB).map Node.children = (nodeB.update nodeP).map Node.children ∧
      (nodeP.update nodeB).map (fun n => (n.branches : Multiset Branch)) =
        (nodeB.update nodeP).map (fun n => (n.branches : Multiset Branch)) :=
  node_update_commutative nodeP nodeB rfl (Or.inl rfl)

/-- C2 counterexample: merging two differing non-neutral actions on the
same commit is not flagged — `Node::update` succeeds and silently resolves
in favor of the incoming node's action (`Protect` merged with `Fixup 0`
yields `Fixup 0`). -/
theorem node_update_silent_overwrite :
    nodeC.action = Action.Protect ∧ nodeD.action = Action.Fixup 0 ∧
      nodeC.update nodeD =
        some
          { commit := { id := 2, parent_ids := [1], message := "feature1", time := 2 }
            branches := []
            action := Action.Fixup 0
            pushable := false
            children := ∅ } :=
  ⟨rfl, rfl, rfl⟩

/-- C2 (amended): when merging node B into node A on the same commit id,
B's action replaces A's exactly when B's action is not the neutral `Pick`
(otherwise A's is kept); two differing non-neutral actions are not flagged
as a contradiction — the merge succeeds and B's action silently wins. -/
theorem node_update_action_precedence (a b : Node)
    (h : a.commit.id = b.commit.id) :
    (a.update b).isSome = true ∧
      (b.action = Action.Pick → (a.update b).map Node.action = some a.action) ∧
      (b.action ≠ Action.Pick → (a.update b).map Node.action = some b.action) := by
  unfold Node.update
  rw [if_pos h]
  refine ⟨rfl, ?_, ?_⟩
  · intro hb
    simp [hb]
  · intro hb
    simp [hb]

/-- C2 witness: merging `Fixup 0` into `Protect` on commit 2 keeps the
incoming non-neutral action. -/
theorem node_update_action_precedence_witness :
    (nodeC.update nodeD).map Node.action = some nodeD.action :=
  (node_update_action_precedence nodeC nodeD rfl).2.2 (by decide)

/-- C3: for two nodes on the same commit id, `Node::update` appends the
incoming node's branches after the original ones, ORs the pushable flags,
and unions the children sets. -/
theorem node_update_fields (a b : Node) (h : a.commit.id = b.commit.id) :
    (a.update b).map Node.branches = some (a.branches ++ b.branches) ∧
      (a.update b).map Node.pushable = some (a.pushable || b.pushable) ∧
      (a.update b).map Node.children = some (a.children ∪ b.children) := by
  unfold Node.update
  rw [if_pos h]
  refine ⟨rfl, ?_, rfl⟩
  simp only [Option.map_some']
  cases b.pushable <;> simp

/-- C3 witness: merging the two partial nodes at commit 1. -/
theorem node_update_fields_witness :
    (nodeA.update nodeB).map Node.branches = some (nodeA.branches ++ nodeB.branches) ∧
      (nodeA.update nodeB).map Node.pushable = some (nodeA.pushable || nodeB.pushable) ∧
      (nodeA.update nodeB).map Node.children = some (nodeA.children ∪ nodeB.children) :=
  node_update_fields nodeA nodeB rfl

/-- C9: `Node::update` on two nodes with differing commit ids fails (the
`assert_eq!` aborts, modelled as `none`); under the precondition that the
ids are equal the failure branch is unreachable and the merge produces a
node. -/
theorem node_update_id_assertion (a b : Node) :
    (a.commit.id ≠ b.commit.id → a.update b = none) ∧
      (a.commit.id = b.commit.id → (a.update b).isSome = true) := by
  constructor
  · intro h
    simp [Node.update, h]
  · intro h
    simp [Node.update, h]

/-- C9 witness: merging across commits 1 and 2 aborts; merging the two
nodes of commit 1 succeeds. -/
theorem node_update_id_assertion_witness :
    nodeA.update nodeQ = none ∧ (nodeA.update nodeB).isSome = true :=
  ⟨(node_update_id_assertion nodeA nodeQ).1 (by decide),
    (node_update_id_assertion nodeA nodeB).2 rfl⟩

/-- C7: `RepoConfig::update` merges two configuration layers field by
field: every scalar field takes the later layer's value when set and
otherwise keeps the earlier one (last non-empty wins), while the
list-valued `protected_branches` accumulates — the merged list is the
earlier entries followed by the later ones, and it is unset only when both
layers leave it unset. -/
theorem repoconfig_update_merge (a b : RepoConfig) :
    (a.update b).protected_branches.getD [] =
        a.protected_branches.getD [] ++ b.protected_branches.getD [] ∧
      ((a.update b).protected_branches = none ↔
        a.protected_branches = none ∧ b.protected_branches = none) ∧
      (a.update b).protect_commit_count =
        (if b.protect_commit_count.isSome then b.protect_commit_count
          else a.protect_commit_count) ∧
      (a.update b).protect_commit_age =
        (if b.protect_commit_age.isSome then b.protect_commit_age
          else a.protect_commit_age) ∧
      (a.update b).stack = (if b.stack.isSome then b.stack else a.stack) ∧
      (a.update b).push_remote =
        (if b.push_remote.isSome then b.push_remote else a.push_remote) ∧
      (a.update b).pull_remote =
        (if b.pull_remote.isSome then b.pull_remote else a.pull_remote) ∧
      (a.update b).show_format =
        (if b.show_format.isSome then b.show_format else a.show_format) ∧
      (a.update b).show_stacked =
        (if b.show_stacked.isSome then b.show_stacked else a.show_stacked) ∧
      (a.update b).auto_fixup =
        (if b.auto_fixup.isSome then b.auto_fixup else a.auto_fixup) ∧
      (a.update b).auto_repair =
        (if b.auto_repair.isSome then b.auto_repair else a.auto_repair) ∧
      (a.update b).capacity =
        (if b.capacity.isSome then b.capacity else a.capacity) := by
  refine ⟨?_, ?_, ?_, ?_, ?_, ?_, ?_, ?_, ?_, ?_, ?_, ?_⟩
  · cases ha : a.protected_branches <;> cases hb : b.protected_branches <;>
      simp [RepoConfig.update, ha, hb]
  · cases ha : a.protected_branches <;> cases hb : b.protected_branches <;>
      simp [RepoConfig.update, ha, hb]
  · cases hb : b.protect_commit_count <;> simp [RepoConfig.update, hb]
  · cases hb : b.protect_commit_age <;> simp [RepoConfig.update, hb]
  · cases hb : b.stack <;> simp [RepoConfig.update, hb]
  · cases hb : b.push_remote <;> simp [RepoConfig.update, hb]
  · cases hb : b.pull_remote <;> simp [RepoConfig.update, hb]
  · cases hb : b.show_format <;> simp [RepoConfig.update, hb]
  · cases hb : b.show_stacked <;> simp [RepoConfig.update, hb]
  · cases hb : b.auto_fixup <;> simp [RepoConfig.update, hb]
  · cases hb : b.auto_repair <;> simp [RepoConfig.update, hb]
  · cases hb : b.capacity <;> simp [RepoConfig.update, hb]

/-- C10: merging a fully-unset configuration layer into any config is the
identity — a later layer that sets nothing never clears or alters a field
set by an earlier layer. -/
theorem repoconfig_update_default_identity (c : RepoConfig) :
    c.update RepoConfig.mkDefault = c := by
  cases c with
  | mk pb cc ca st pushr pullr fmt ss fix rep cap =>
    cases pb <;> simp [RepoConfig.update, RepoConfig.mkDefault]

/-- C8: for each config enum (`Format`, `Stack`, `Fixup`), parsing the
displayed name of any variant returns that variant, and any string outside
the listed variant names is rejected with an error. -/
theorem config_enum_roundtrip :
    (∀ v : Format, Format.from_str (Format.display v) = Except.ok v) ∧
      (∀ v : Stack, Stack.from_str (Stack.display v) = Except.ok v) ∧
      (∀ v : Fixup, Fixup.from_str (Fixup.display v) = Except.ok v) ∧
      (∀ s : String, s ∉ Format.variants →
        Format.from_str s =
          Except.error ("valid values: " ++ String.intercalate ", " Format.variants)) ∧
      (∀ s : String, s ∉ Stack.variants →
        Stack.from_str s =
          Except.error ("valid values: " ++ String.intercalate ", " Stack.variants)) ∧
      (∀ s : String, s ∉ Fixup.variants →
        Fixup.from_str s =
          Except.error ("valid values: " ++ String.intercalate ", " Fixup.variants)) := by
  refine ⟨?_, ?_, ?_, ?_, ?_, ?_⟩
  · intro v
    cases v <;> rfl
  · intro v
    cases v <;> rfl
  · intro v
    cases v <;> rfl
  · intro s hs
    simp only [Format.variants, List.mem_cons, List.mem_singleton, not_or] at hs
    obtain ⟨h1, h2, h3, h4, h5⟩ := hs
    simp [Format.from_str, h1, h2, h3, h4, h5]
  · intro s hs
    simp only [Stack.variants, List.mem_cons, List.mem_singleton, not_or] at hs
    obtain ⟨h1, h2, h3, h4⟩ := hs
    simp [Stack.from_str, h1, h2, h3, h4]
  · intro s hs
    simp only [Fixup.variants, List.mem_cons, List.mem_singleton, not_or] at hs
    obtain ⟨h1, h2, h3⟩ := hs
    simp [Fixup.from_str, h1, h2, h3]

/-- C8 witness: the round trip at one concrete variant of each enum, and
rejection of a concrete unknown string. -/
theorem config_enum_roundtrip_witness :
    Format.from_str (Format.display Format.Silent) = Except.ok Format.Silent ∧
      Stack.from_str (Stack.display Stack.Current) = Except.ok Stack.Current ∧
      Fixup.from_str (Fixup.display Fixup.Ignore) = Except.ok Fixup.Ignore ∧
      Format.from_str "bogus" =
        Except.error ("valid values: " ++ String.intercalate ", " Format.variants) :=
  ⟨config_enum_roundtrip.1 Format.Silent,
    config_enum_roundtrip.2.1 Stack.Current,
    config_enum_roundtrip.2.2.1 Fixup.Ignore,
    config_enum_roundtrip.2.2.2.1 "bogus" (by decide)⟩

/-- Helper: whatever branch an upward walk returns was produced by its
`check` at some visited commit. -/
theorem walkUp_check {repo : List Commit} {check : Nat → Option Branch}
    {P : Branch → Prop} (hcheck : ∀ i b, check i = some b → P b) :
    ∀ fuel id b, walkUp repo check fuel id = some b → P b := by
  intro fuel
  induction fuel with
  | zero =>
    intro id b h
    simp [walkUp] at h
  | succ n ih =>
    intro id b h
    rw [walkUp] at h
    cases hc : check id with
    | some c =>
      rw [hc] at h
      exact hcheck id b (by rw [hc, Option.some_inj.mp h])
    | none =>
      rw [hc] at h
      cases hl : lookupCommit repo id with
      | some c =>
        rw [hl] at h
        obtain ⟨p, _, hw⟩ := List.exists_of_findSome?_eq_some h
        exact ih p b hw
      | none =>
        rw [hl] at h
        exact absurd h (by simp)

/-- Helper: a walk whose `check` never fires returns nothing. -/
theorem walkUp_none {repo : List Commit} {check : Nat → Option Branch}
    (hcheck : ∀ i, check i = none) :
    ∀ fuel id, walkUp repo check fuel id = none := by
  intro fuel
  induction fuel with
  | zero =>
    intro id
    rfl
  | succ n ih =>
    intro id
    rw [walkUp, hcheck id]
    cases lookupCommit repo id with
    | some c => simp [List.findSome?_eq_none_iff, ih]
    | none => rfl

/-- C4: the classifier results nest — every branch in the strict
`branch(base, head)` window is among `dependents(base, head)`, and every
dependent is among `descendants(base)`; each narrowing only filters. -/
theorem classifier_nesting (repo : List Commit) (branches : List Branch)
    (base_id head_id : Nat)
    (hline : isAncestor repo base_id head_id = true) :
    branch repo branches base_id head_id ⊆
        dependents repo branches base_id head_id ∧
      dependents repo branches base_id head_id ⊆
        descendants repo branches base_id := by
  constructor
  · intro b hb
    rw [branch, List.mem_filter] at hb
    rw [dependents, List.mem_filter]
    refine ⟨hb.1, ?_⟩
    have hcond := hb.2
    simp only [Bool.and_eq_true, Bool.or_eq_true] at hcond ⊢
    exact ⟨hcond.1, Or.inl hcond.2⟩
  · intro b hb
    rw [dependents, List.mem_filter] at hb
    rw [descendants, List.mem_filter]
    have hcond := hb.2
    simp only [Bool.and_eq_true] at hcond
    exact ⟨hb.1, hcond.1⟩

/-- C4 witness: on the fixture DAG with base `base` (1) and head
`feature1` (2), the branch `base` sits in all three result sets. -/
theorem classifier_nesting_witness :
    ({ name := "base", id := 1 } : Branch) ∈
        dependents fixtureRepo fixtureBranches 1 2 ∧
      ({ name := "base", id := 1 } : Branch) ∈
        descendants fixtureRepo fixtureBranches 1 :=
  ⟨(classifier_nesting fixtureRepo fixtureBranches 1 2 (by decide)).1 (by decide),
    (classifier_nesting fixtureRepo fixtureBranches 1 2 (by decide)).2 (by decide)⟩

/-- C5 counterexample: reading `find_protected_base` literally as an
upward ancestry walk that stops at a commit *carrying* a protected branch
yields `None` on the fixture DAG from `base` (and even from `off_master`),
because `master` sits on a descendant, not an ancestor — contradicting the
claimed `Some(master)` and the repository's `test_protected_base`. -/
theorem find_protected_base_literal_counterexample :
    find_protected_base_spec fixtureRepo fixtureProtected 1 = none ∧
      find_protected_base_spec fixtureRepo fixtureProtected 4 = none :=
  ⟨rfl, rfl⟩

/-- C5 (amended): `find_protected_base` walks `head_id`'s ancestry upward
(first parent preferred, depth-first over all parents) and stops at the
first commit that is a merge base with — an ancestor of or equal to — some
protected branch tip, returning that protected branch (so the returned
branch is always one of the protected set); on the fixture DAG it returns
`Some(master)` from `base` and from `off_master`. -/
theorem find_protected_base_merge_base :
    (∀ (repo : List Commit) (prot : List Branch) (head_id : Nat) (b : Branch),
        find_protected_base repo prot head_id = some b → b ∈ prot) ∧
      find_protected_base fixtureRepo fixtureProtected 1 =
        some { name := "master", id := 5 } ∧
      find_protected_base fixtureRepo fixtureProtected 4 =
        some { name := "master", id := 5 } := by
  refine ⟨?_, rfl, rfl⟩
  intro repo prot head_id b h
  exact walkUp_check (fun i b hb => List.mem_of_find?_eq_some hb)
    (repo.length + 1) head_id b h

/-- C5 witness: the branch returned from `base` on the fixture DAG belongs
to the protected set. -/
theorem find_protected_base_merge_base_witness :
    ({ name := "master", id := 5 } : Branch) ∈ fixtureProtected :=
  find_protected_base_merge_base.1 fixtureRepo fixtureProtected 1
    { name := "master", id := 5 } (by decide)

/-- C6: with an empty protected set, `find_protected_base` returns `None`
for every repository and every head id — under the test-backed merge-base
model and under the spec's literal upward-walk reading alike. -/
theorem find_protected_base_empty (repo : List Commit) (head_id : Nat) :
    find_protected_base repo [] head_id = none ∧
      find_protected_base_spec repo [] head_id = none :=
  ⟨walkUp_none (fun _ => rfl) (repo.length + 1) head_id,
    walkUp_none (fun _ => rfl) (repo.length + 1) head_id⟩

end GitStack
